import Mathlib

/-!
Verification development for the deployment-orchestrator core of the
ai-lumiolabs repository.

The TypeScript sources are shallowly embedded: the Prisma-backed store is an
explicit `Db` value threaded through each operation, timestamps (`new Date()`)
are an explicit `now : Nat` argument, identifiers generated by the database
(cuid primary keys) are modelled as a deterministic fresh id (one larger than
any id in the store, hence unique), and outcomes of external network calls
(Cloud Build submission / cancellation, log polling) are explicit parameters.
Fields of `Project` that are only copied into the external build payload
(build/start commands, port, env vars, project type) are omitted; no modelled
operation reads them.
-/

set_option maxRecDepth 4000

/-- Deployment lifecycle statuses, from the Prisma `DeploymentStatus` enum used
throughout `deployment.ts` and `cloudbuild.ts`. -/
inductive DeploymentStatus
  | QUEUED
  | CLONING
  | BUILDING
  | PUSHING
  | DEPLOYING
  | LIVE
  | FAILED
  | CANCELLED
  deriving DecidableEq, Repr

/-- Project statuses appearing in the sources (`PENDING` in the delete route,
`BUILDING`/`FAILED` in `createDeployment`, `DEPLOYED` in
`updateDeploymentStatus`). -/
inductive ProjectStatus
  | PENDING
  | BUILDING
  | DEPLOYED
  | FAILED
  deriving DecidableEq, Repr

/-- Per-project webhook configuration (`webhookConfig` relation): the
`enabled` and `autoDeploy` gates read by the webhook route. -/
structure WebhookConfig where
  enabled : Bool
  autoDeploy : Bool
  deriving DecidableEq, Repr

/-- A project row. `ownerEmail` stands for the included `owner.email` used by
the route-level ownership checks. -/
structure Project where
  id : Nat
  ownerEmail : String
  repoUrl : Option String
  branch : String
  subdomain : String
  status : ProjectStatus
  lastDeployedAt : Option Nat
  cloudRunService : Option String
  webhookConfig : Option WebhookConfig
  deriving DecidableEq, Repr

/-- A deployment row, with the fields read or written by the modelled
operations. -/
structure Deployment where
  id : Nat
  projectId : Nat
  version : Nat
  branch : String
  commitHash : Option String
  commitMessage : Option String
  triggeredBy : String
  status : DeploymentStatus
  buildId : Option Nat
  errorMessage : Option String
  buildLogs : Option String
  imageUrl : Option String
  cloudRunUrl : Option String
  startedAt : Option Nat
  completedAt : Option Nat
  deriving DecidableEq, Repr

/-- The durable store: the project and deployment tables. -/
structure Db where
  projects : List Project
  deployments : List Deployment
  deriving DecidableEq, Repr

/-- JavaScript `a || b` for an optional string: `undefined` and the empty
string are falsy. -/
def jsOrString (a : Option String) (b : String) : String :=
  match a with
  | some s => if s = "" then b else s
  | none => b

/-- The test `status === "LIVE" || status === "FAILED" || status === "CANCELLED"`, the
terminal-status test written out in `updateDeploymentStatus` and
`cancelDeployment`. -/
def isTerminalStatus (s : DeploymentStatus) : Bool :=
  s == .LIVE || s == .FAILED || s == .CANCELLED

/-- Membership in `["QUEUED", "CLONING", "BUILDING", "PUSHING", "DEPLOYING"]`,
the active-status list used by the deploy route's `findFirst`. -/
def isActiveStatus (s : DeploymentStatus) : Bool :=
  s == .QUEUED || s == .CLONING || s == .BUILDING || s == .PUSHING || s == .DEPLOYING

/-- Lookup `prisma.project.findUnique({ where: { id } })`. -/
def findProject (db : Db) (pid : Nat) : Option Project :=
  db.projects.find? (fun p => p.id == pid)

/-- Lookup `prisma.deployment.findUnique({ where: { id } })`. -/
def findDeployment (db : Db) (did : Nat) : Option Deployment :=
  db.deployments.find? (fun d => d.id == did)

/-- Update `prisma.project.update({ where: { id }, data })`: rewrite the rows whose
id matches. -/
def updateProjectRow (db : Db) (pid : Nat) (f : Project → Project) : Db :=
  { db with projects := db.projects.map (fun p => if p.id == pid then f p else p) }

/-- Update `prisma.deployment.update({ where: { id }, data })`: rewrite the rows
whose id matches. -/
def updateDeploymentRow (db : Db) (did : Nat) (f : Deployment → Deployment) : Db :=
  { db with deployments := db.deployments.map (fun d => if d.id == did then f d else d) }

/-- Insert `prisma.deployment.create`: append the new row. -/
def insertDeployment (db : Db) (d : Deployment) : Db :=
  { db with deployments := db.deployments ++ [d] }

/-- The database-generated primary key for a new deployment row, modelled as
one larger than every existing id (the generated cuid is always fresh). -/
def freshDeploymentId (db : Db) : Nat :=
  (db.deployments.map (fun d => d.id)).foldr max 0 + 1

/-- The expression `project.deployments[0]?.version ?? 0` where the include sorts by version
descending and takes one: the largest existing version for the project, or 0. -/
def lastVersionOf (db : Db) (pid : Nat) : Nat :=
  ((db.deployments.filter (fun d => d.projectId == pid)).map (fun d => d.version)).foldr max 0

/- ------------------------------------------------------------------ -/
/- cloudbuild.ts: backend-status normalization                         -/
/- ------------------------------------------------------------------ -/

/-- Function `mapBuildStatusToDeploymentStatus` from `cloudbuild.ts`: the switch over
the Cloud Build status string, with the switch's fallthrough groups rendered
as disjunctions and its `default` as the final alternative. -/
def mapBuildStatusToDeploymentStatus (buildStatus : String) : DeploymentStatus :=
  if buildStatus = "QUEUED" ∨ buildStatus = "PENDING" then .QUEUED
  else if buildStatus = "WORKING" then .BUILDING
  else if buildStatus = "SUCCESS" then .LIVE
  else if buildStatus = "FAILURE" ∨ buildStatus = "TIMEOUT" ∨ buildStatus = "INTERNAL_ERROR" then .FAILED
  else if buildStatus = "CANCELLED" then .CANCELLED
  else .BUILDING

/- ------------------------------------------------------------------ -/
/- github.ts: signature verification and URL parsing                   -/
/- ------------------------------------------------------------------ -/

/-- Function `verifyWebhookSignature` from `github.ts`. The HMAC-SHA256 hex digest
computed by the `crypto` library is an explicit function argument
`hmacHex secret payload`; `envSecret` is the `GITHUB_WEBHOOK_SECRET`
environment value (empty string when unset). The final branch mirrors
`crypto.timingSafeEqual` inside `try/catch`: a length mismatch throws and is
caught (`false`), equal lengths compare contents. The function is total: it
returns a `Bool` on every input and never throws. -/
def verifyWebhookSignature (hmacHex : String → String → String) (envSecret : String)
    (payload : String) (signature : Option String) (secret : Option String) : Bool :=
  match signature with
  | none => false
  | some sig =>
    let webhookSecret := jsOrString secret envSecret
    if webhookSecret = "" then false
    else
      let digest := "sha256=" ++ hmacHex webhookSecret payload
      if digest.length = sig.length then decide (digest = sig) else false

/-- The characters of the literal `github.com` in the first pattern of
`parseGitHubUrl`. -/
def githubComChars : List Char := "github.com".data

/-- The characters of the literal `.git` suffix. -/
def dotGitChars : List Char := ".git".data

/-- Holds when `l` contains no `/`, i.e. it could be matched by `[^/]+` (together with
nonemptiness). -/
def noSlash (l : List Char) : Bool := l.all (fun c => c ≠ '/')

/-- Split a character list at its first `/`, returning the (slash-free) part
before it and the part after it; `none` when there is no `/`. -/
def splitAtFirstSlash : List Char → Option (List Char × List Char)
  | [] => none
  | c :: rest =>
    if c = '/' then some ([], rest)
    else (splitAtFirstSlash rest).map (fun pr => (c :: pr.1, pr.2))

/-- The lazy group `([^/]+?)(?:\.git)?$` applied to `rest`: the shortest
nonempty prefix such that the remainder is `.git` or empty — i.e. one trailing
`.git` is stripped when what precedes it is nonempty. -/
def lazyGitGroup (rest : List Char) : List Char :=
  if dotGitChars.isSuffixOf rest ∧ rest.length > 4 then rest.take (rest.length - 4) else rest

/-- Model of `match[2].replace(/\.git$/, "")`: strip one trailing `.git` if present
(possibly leaving the empty list). -/
def replaceGitSuffix (l : List Char) : List Char :=
  if dotGitChars.isSuffixOf l then l.take (l.length - 4) else l

/-- Attempt the remainder of pattern `github\.com[:/]([^/]+)\/([^/]+?)(?:\.git)?$`
on the text following an occurrence of `github.com`: a `:` or `/` separator,
then a nonempty slash-free owner, a `/`, and a nonempty slash-free tail
reaching the end of the string. Returns the owner and the raw tail. -/
def matchAfterGithubCom (tail : List Char) : Option (List Char × List Char) :=
  match tail with
  | [] => none
  | sep :: t2 =>
    if sep = ':' ∨ sep = '/' then
      match splitAtFirstSlash t2 with
      | some (owner, rest) =>
        if owner ≠ [] ∧ rest ≠ [] ∧ noSlash rest = true then some (owner, rest) else none
      | none => none
    else none

/-- Leftmost-match scan for the first `parseGitHubUrl` pattern: try each
position left to right; where `github.com` occurs, attempt the rest of the
pattern (which is anchored at the end), else move one character right. -/
def findGitHubPattern : List Char → Option (List Char × List Char)
  | [] => none
  | c :: rest =>
    if githubComChars.isPrefixOf (c :: rest) then
      match matchAfterGithubCom ((c :: rest).drop githubComChars.length) with
      | some r => some r
      | none => findGitHubPattern rest
    else findGitHubPattern rest

/-- Function `parseGitHubUrl` from `github.ts`: try the full-URL pattern
`github\.com[:/]([^/]+)\/([^/]+?)(?:\.git)?$` first, then the shorthand
`^([^/]+)\/([^/]+)$`; in both cases the repo group additionally has a trailing
`.git` removed by `.replace(/\.git$/, "")`. -/
def parseGitHubUrl (url : String) : Option (String × String) :=
  match findGitHubPattern url.data with
  | some (owner, rest) => some (⟨owner⟩, ⟨replaceGitSuffix (lazyGitGroup rest)⟩)
  | none =>
    match splitAtFirstSlash url.data with
    | some (a, b) =>
      if a ≠ [] ∧ b ≠ [] ∧ noSlash b = true then some (⟨a⟩, ⟨replaceGitSuffix b⟩)
      else none
    | none => none

/-- JavaScript `String.prototype.toLowerCase` on the ASCII strings involved. -/
def lowerStr (s : String) : String := ⟨s.data.map Char.toLower⟩

/-- Predicate `repoUrlMatches` from `github.ts`: both URLs parse and the `(owner, repo)`
pairs agree case-insensitively. -/
def repoUrlMatches (configuredUrl eventUrl : String) : Bool :=
  match parseGitHubUrl configuredUrl, parseGitHubUrl eventUrl with
  | some (o1, r1), some (o2, r2) =>
    decide (lowerStr o1 = lowerStr o2) && decide (lowerStr r1 = lowerStr r2)
  | _, _ => false

/- ------------------------------------------------------------------ -/
/- deployment.ts: the orchestrator                                     -/
/- ------------------------------------------------------------------ -/

/-- The `CreateDeploymentOptions` interface of `deployment.ts`. -/
structure CreateDeploymentOptions where
  branch : Option String
  commitHash : Option String
  commitMessage : Option String
  triggeredBy : String
  deriving DecidableEq, Repr

/-- Outcome of the external `submitCloudBuild` call: the build id it resolves
with, or the message of the error it rejects with. -/
inductive SubmitOutcome
  | ok (buildId : Nat)
  | err (msg : String)
  deriving DecidableEq, Repr

/-- The deployment row inserted by `prisma.deployment.create` inside
`createDeployment`: next version, the `||`-resolved branch, status `QUEUED`,
and every unspecified column at its default. -/
def queuedRecord (db : Db) (projectId : Nat) (options : CreateDeploymentOptions)
    (project : Project) : Deployment :=
  { id := freshDeploymentId db
    projectId := projectId
    version := lastVersionOf db projectId + 1
    branch := jsOrString options.branch project.branch
    commitHash := options.commitHash
    commitMessage := options.commitMessage
    triggeredBy := options.triggeredBy
    status := .QUEUED
    buildId := none
    errorMessage := none
    buildLogs := none
    imageUrl := none
    cloudRunUrl := none
    startedAt := none
    completedAt := none }

/-- Function `createDeployment` from `deployment.ts`. Returns the store after the call
together with the function's outcome (the returned deployment object, or the
message of the thrown error). Mirrors the source order: look up the project
(throw if missing or without a repository URL), insert the `QUEUED` row, set
the project to `BUILDING`, submit the build; on success record `buildId`,
`CLONING` and the start time and return the (stale, still-`QUEUED`) spread of
the created object with `buildId`; on submission failure mark the row
`FAILED` with the error and completion time, set the project to `FAILED`, and
rethrow. -/
def createDeployment (db : Db) (projectId : Nat) (options : CreateDeploymentOptions)
    (submit : SubmitOutcome) (now : Nat) : Db × Except String Deployment :=
  match findProject db projectId with
  | none => (db, .error "Project not found")
  | some project =>
    match project.repoUrl with
    | none => (db, .error "Project has no repository URL configured")
    | some _ =>
      let deployment := queuedRecord db projectId options project
      let db1 := insertDeployment db deployment
      let db2 := updateProjectRow db1 projectId (fun p => { p with status := .BUILDING })
      match submit with
      | .ok buildId =>
        let db3 := updateDeploymentRow db2 deployment.id (fun d =>
          { d with buildId := some buildId, status := .CLONING, startedAt := some now })
        (db3, .ok { deployment with buildId := some buildId })
      | .err msg =>
        let db3 := updateDeploymentRow db2 deployment.id (fun d =>
          { d with status := .FAILED, errorMessage := some msg, completedAt := some now })
        let db4 := updateProjectRow db3 projectId (fun p => { p with status := .FAILED })
        (db4, .error msg)

/-- The optional `extras` argument of `updateDeploymentStatus`; an absent key
is `none`. -/
structure TransitionExtras where
  buildLogs : Option String
  errorMessage : Option String
  imageUrl : Option String
  cloudRunUrl : Option String
  deriving DecidableEq, Repr

/-- An `extras` object with every key absent. -/
def noExtras : TransitionExtras := ⟨none, none, none, none⟩

/-- The `data` object `{ status, ...extras }` of `updateDeploymentStatus`,
plus `completedAt` when the new status is terminal, applied to a row: present
extras overwrite, absent ones leave the column alone. -/
def applyTransitionData (d : Deployment) (status : DeploymentStatus)
    (e : TransitionExtras) (now : Nat) : Deployment :=
  { d with
    status := status
    buildLogs := if e.buildLogs.isSome then e.buildLogs else d.buildLogs
    errorMessage := if e.errorMessage.isSome then e.errorMessage else d.errorMessage
    imageUrl := if e.imageUrl.isSome then e.imageUrl else d.imageUrl
    cloudRunUrl := if e.cloudRunUrl.isSome then e.cloudRunUrl else d.cloudRunUrl
    completedAt :=
      if status == .LIVE || status == .FAILED || status == .CANCELLED
      then some now else d.completedAt }

/-- Function `updateDeploymentStatus` from `deployment.ts`: update the row (a missing
id makes `prisma.deployment.update` throw, leaving the store untouched), then
update the owning project — `DEPLOYED` with `lastDeployedAt` and the service
name `project-<subdomain>` on `LIVE`, `FAILED` on `FAILED`, untouched
otherwise. -/
def updateDeploymentStatus (db : Db) (deploymentId : Nat) (status : DeploymentStatus)
    (extras : TransitionExtras) (now : Nat) : Db × Except String Deployment :=
  match findDeployment db deploymentId with
  | none => (db, .error "Record to update not found")
  | some d =>
    let updated := applyTransitionData d status extras now
    let db1 := updateDeploymentRow db deploymentId
      (fun x => applyTransitionData x status extras now)
    if status == .LIVE then
      let db2 := updateProjectRow db1 d.projectId (fun p =>
        { p with status := .DEPLOYED, lastDeployedAt := some now,
                 cloudRunService := some ("project-" ++ p.subdomain) })
      (db2, .ok updated)
    else if status == .FAILED then
      (updateProjectRow db1 d.projectId (fun p => { p with status := .FAILED }), .ok updated)
    else
      (db1, .ok updated)

/-- Outcome of the external `cancelCloudBuild` call. -/
inductive BackendCancelOutcome
  | ok
  | err (msg : String)
  deriving DecidableEq, Repr

/-- Function `cancelDeployment` from `deployment.ts`: throw on an unknown id; throw
(without touching the store) when the deployment is already `LIVE`, `FAILED`
or `CANCELLED`; otherwise, when a `buildId` exists, request backend
cancellation inside `try/catch` — its outcome is only logged, never
propagated — and finally transition the deployment to `CANCELLED`. -/
def cancelDeployment (db : Db) (deploymentId : Nat)
    (backendCancel : BackendCancelOutcome) (now : Nat) : Db × Except String Deployment :=
  match findDeployment db deploymentId with
  | none => (db, .error "Deployment not found")
  | some d =>
    if d.status == .LIVE || d.status == .FAILED || d.status == .CANCELLED then
      (db, .error "Cannot cancel a completed deployment")
    else
      match d.buildId, backendCancel with
      | some _, .ok => updateDeploymentStatus db deploymentId .CANCELLED noExtras now
      | some _, .err _ => updateDeploymentStatus db deploymentId .CANCELLED noExtras now
      | none, _ => updateDeploymentStatus db deploymentId .CANCELLED noExtras now

/- ------------------------------------------------------------------ -/
/- api/projects/[id]/deploy: the manual-trigger route                  -/
/- ------------------------------------------------------------------ -/

/-- The lookup `prisma.deployment.findFirst({ where: { projectId, status: { in:
["QUEUED","CLONING","BUILDING","PUSHING","DEPLOYING"] } } })` tested for
truthiness in the deploy route. -/
def hasActiveDeployment (db : Db) (pid : Nat) : Bool :=
  db.deployments.any (fun d => d.projectId == pid && isActiveStatus d.status)

/-- The responses the deploy route can produce. -/
inductive DeployRouteResult
  | unauthorized
  | notFound
  | forbidden
  | conflict
  | ok (d : Deployment)
  | serverError (msg : String)
  deriving DecidableEq, Repr

/-- The `POST /api/projects/[id]/deploy` handler: session check (a missing or
empty email is falsy), project lookup, ownership check, active-deployment
lookup answered with 409, then `createDeployment` with the body branch
`||`-defaulted to the project branch and the session email as `triggeredBy`;
a thrown error becomes a 500 with its message. -/
def deployRoutePOST (db : Db) (sessionEmail : Option String) (projectId : Nat)
    (bodyBranch : Option String) (submit : SubmitOutcome) (now : Nat) :
    Db × DeployRouteResult :=
  match sessionEmail with
  | none => (db, .unauthorized)
  | some email =>
    if email = "" then (db, .unauthorized)
    else
      match findProject db projectId with
      | none => (db, .notFound)
      | some project =>
        if project.ownerEmail ≠ email then (db, .forbidden)
        else if hasActiveDeployment db projectId then (db, .conflict)
        else
          match createDeployment db projectId
              ⟨some (jsOrString bodyBranch project.branch), none, none, email⟩ submit now with
          | (db1, .ok d) => (db1, .ok d)
          | (db1, .error msg) => (db1, .serverError msg)

/- ------------------------------------------------------------------ -/
/- api/webhooks/github: webhook-triggered creation                     -/
/- ------------------------------------------------------------------ -/

/-- The normalized push event produced by `parsePushEvent`. -/
structure PushData where
  branch : String
  commitHash : String
  commitMessage : String
  repoUrl : String
  pusher : String
  deriving DecidableEq, Repr

/-- The webhook route's project filter: the `findMany` condition (`repoUrl`
not null, branch equal) followed by the in-memory filter (webhook config
present, enabled, auto-deploy on, and `repoUrlMatches`). -/
def webhookMatchingProjects (db : Db) (push : PushData) : List Project :=
  (db.projects.filter (fun p => p.repoUrl.isSome && p.branch == push.branch)).filter
    (fun p =>
      match p.repoUrl with
      | none => false
      | some u =>
        match p.webhookConfig with
        | none => false
        | some cfg => cfg.enabled && cfg.autoDeploy && repoUrlMatches u push.repoUrl)

/-- The webhook route's trigger loop (lines 71–82): `createDeployment` for
every matching project with the push's branch, commit data and
`webhook:<pusher>` identity — with no active-deployment check — counting
fulfilled and rejected promises. `Promise.allSettled` is modelled as the
sequential interleaving; `submit` gives each project's submission outcome. -/
def webhookTriggerDeployments (db : Db) (push : PushData)
    (submit : Nat → SubmitOutcome) (now : Nat) : Db × Nat × Nat :=
  (webhookMatchingProjects db push).foldl
    (fun acc p =>
      match createDeployment acc.1 p.id
          ⟨some push.branch, some push.commitHash, some push.commitMessage,
           "webhook:" ++ push.pusher⟩ (submit p.id) now with
      | (db1, .ok _) => (db1, acc.2.1 + 1, acc.2.2)
      | (db1, .error _) => (db1, acc.2.1, acc.2.2 + 1))
    (db, 0, 0)

/- ------------------------------------------------------------------ -/
/- logs route: the log-relay stream                                    -/
/- ------------------------------------------------------------------ -/

/-- The typed server-sent events emitted by the logs route. -/
inductive SseEvent
  | log (content : String)
  | statusEvent (status : DeploymentStatus)
  | complete
  | errorEvent (message : String)
  deriving DecidableEq, Repr

/-- The body of the `ReadableStream` in
`GET /api/projects/[id]/deployments/[deploymentId]/logs` (lines 66–135).
`snapshot` is the deployment record fetched once before the stream;
`subdomain` its included project's subdomain; each observation pairs the log
chunk yielded by `streamBuildLogs` with the backend status string the
subsequent `getBuildStatus` poll returns. Per chunk: accumulate, emit `log`,
normalize the polled status, and — only when it differs from
`snapshot.status`, the status fetched at stream start — write the status row,
emit `status`, and on `LIVE`/`FAILED` additionally persist the accumulated
transcript, a completion time (and on `LIVE` the service URL) and update the
project. -/
def relayLoop (snapshot : Deployment) (subdomain region : String) (now : Nat) :
    Db → String → List (String × String) → Db × String × List SseEvent
  | db, acc, [] => (db, acc, [])
  | db, acc, (chunk, backendStatus) :: rest =>
    let acc' := acc ++ chunk
    let newStatus := mapBuildStatusToDeploymentStatus backendStatus
    if newStatus ≠ snapshot.status then
      let db1 := updateDeploymentRow db snapshot.id (fun d => { d with status := newStatus })
      let db2 :=
        if newStatus = .LIVE ∨ newStatus = .FAILED then
          let dbA := updateDeploymentRow db1 snapshot.id (fun d =>
            { d with buildLogs := some acc'
                     completedAt := some now
                     cloudRunUrl :=
                       if newStatus = .LIVE then
                         some ("https://project-" ++ subdomain ++ "-905543205568." ++
                           region ++ ".run.app")
                       else d.cloudRunUrl })
          updateProjectRow dbA snapshot.projectId (fun p =>
            { p with status := if newStatus = .LIVE then .DEPLOYED else .FAILED
                     lastDeployedAt := if newStatus = .LIVE then some now else p.lastDeployedAt })
        else db1
      let r := relayLoop snapshot subdomain region now db2 acc' rest
      (r.1, r.2.1, .log chunk :: .statusEvent newStatus :: r.2.2)
    else
      let r := relayLoop snapshot subdomain region now db acc' rest
      (r.1, r.2.1, .log chunk :: r.2.2)

/-- One full relay stream: run the loop from an empty transcript and emit the
final `complete` event. -/
def relayStream (db : Db) (snapshot : Deployment) (subdomain region : String)
    (now : Nat) (obs : List (String × String)) : Db × List SseEvent :=
  let r := relayLoop snapshot subdomain region now db "" obs
  (r.1, r.2.2 ++ [SseEvent.complete])

/-- Number of `status` events — one per deployment-status write — in an event
list. -/
def statusEventCount (events : List SseEvent) : Nat :=
  events.countP (fun e => match e with | .statusEvent _ => true | _ => false)

/- ------------------------------------------------------------------ -/
/- The single-active-deployment invariant                              -/
/- ------------------------------------------------------------------ -/

/-- The deploy route's active-deployment predicate for project `pid`. -/
def activeForProject (pid : Nat) (d : Deployment) : Bool :=
  d.projectId == pid && isActiveStatus d.status

/-- Number of deployments of project `pid` in a non-terminal status. -/
def activeCount (db : Db) (pid : Nat) : Nat :=
  db.deployments.countP (activeForProject pid)

/-- The spec's invariant: every project has at most one deployment in a
non-terminal status. -/
def singleActive (db : Db) : Prop := ∀ pid, activeCount db pid ≤ 1

/-- A boolean outcome test for `Except`, used to state counterexamples. -/
def exceptOk (e : Except String Deployment) : Bool :=
  match e with
  | .ok _ => true
  | .error _ => false

/- ------------------------------------------------------------------ -/
/- General helper lemmas                                               -/
/- ------------------------------------------------------------------ -/

/-- Every member of a list of naturals is bounded by its `foldr max 0`. -/
lemma le_foldr_max_of_mem : ∀ (l : List Nat) (x : Nat), x ∈ l → x ≤ l.foldr max 0 := by
  intro l
  induction l with
  | nil => intro x hx; cases hx
  | cons a t ih =>
    intro x hx
    rcases List.mem_cons.mp hx with h | h
    · subst h; exact le_max_left _ _
    · exact le_trans (ih x h) (le_max_right _ _)

/-- The generated id of a new deployment differs from every existing id. -/
lemma freshDeploymentId_not_hit (db : Db) :
    ∀ d ∈ db.deployments, (d.id == freshDeploymentId db) = false := by
  intro d hd
  have hle : d.id ≤ (db.deployments.map (fun d => d.id)).foldr max 0 :=
    le_foldr_max_of_mem _ _ (List.mem_map_of_mem _ hd)
  have : d.id ≠ freshDeploymentId db := by
    unfold freshDeploymentId
    omega
  simpa using this

/-- No existing row carries the generated id. -/
lemma findDeployment_fresh (db : Db) : findDeployment db (freshDeploymentId db) = none := by
  unfold findDeployment
  rw [List.find?_eq_none]
  intro d hd
  simp [freshDeploymentId_not_hit db d hd]

/-- A row rewrite keyed on an id that hits no element leaves the table
unchanged. -/
lemma map_update_no_hit (l : List Deployment) (i : Nat) (f : Deployment → Deployment)
    (h : ∀ d ∈ l, (d.id == i) = false) :
    l.map (fun d => if d.id == i then f d else d) = l := by
  have := List.map_congr_left (f := fun d => if d.id == i then f d else d) (g := id)
    (l := l) (fun d hd => by simp [h d hd])
  simpa using this

/-- The lookup `find?` commutes with a map that does not change the predicate's verdict. -/
lemma find?_map_pres {α : Type} (l : List α) (g : α → α) (p : α → Bool)
    (h : ∀ x, p (g x) = p x) : (l.map g).find? p = (l.find? p).map g := by
  rw [List.find?_map]
  have hpg : (p ∘ g) = p := funext h
  rw [hpg]

/-- Looking a project up after a keyed rewrite that preserves ids returns the
rewritten hit. -/
lemma findProject_updateProjectRow (db : Db) (pid qid : Nat) (f : Project → Project)
    (hf : ∀ p, (f p).id = p.id) :
    findProject (updateProjectRow db pid f) qid
      = (findProject db qid).map (fun p => if p.id == pid then f p else p) := by
  unfold findProject updateProjectRow
  exact find?_map_pres _ _ _ (fun x => by
    by_cases hx : (x.id == pid) = true
    · simp [hx, hf]
    · simp [hx])

/-- Looking a deployment up after a keyed rewrite that preserves ids returns
the rewritten hit. -/
lemma findDeployment_updateDeploymentRow (db : Db) (did qid : Nat)
    (f : Deployment → Deployment) (hf : ∀ d, (f d).id = d.id) :
    findDeployment (updateDeploymentRow db did f) qid
      = (findDeployment db qid).map (fun d => if d.id == did then f d else d) := by
  unfold findDeployment updateDeploymentRow
  exact find?_map_pres _ _ _ (fun x => by
    by_cases hx : (x.id == did) = true
    · simp [hx, hf]
    · simp [hx])

/- ------------------------------------------------------------------ -/
/- Claim C5                                                            -/
/- ------------------------------------------------------------------ -/

/-- Claim C5: `mapBuildStatusToDeploymentStatus` maps QUEUED and PENDING to
QUEUED, WORKING to BUILDING, SUCCESS to LIVE, FAILURE, TIMEOUT and
INTERNAL_ERROR to FAILED, CANCELLED to CANCELLED, and every other input
string to BUILDING; being a total function it is defined on every input, and
on every unrecognized input it returns the non-terminal status BUILDING. -/
theorem mapBuildStatus_total_mapping :
    mapBuildStatusToDeploymentStatus "QUEUED" = .QUEUED ∧
    mapBuildStatusToDeploymentStatus "PENDING" = .QUEUED ∧
    mapBuildStatusToDeploymentStatus "WORKING" = .BUILDING ∧
    mapBuildStatusToDeploymentStatus "SUCCESS" = .LIVE ∧
    mapBuildStatusToDeploymentStatus "FAILURE" = .FAILED ∧
    mapBuildStatusToDeploymentStatus "TIMEOUT" = .FAILED ∧
    mapBuildStatusToDeploymentStatus "INTERNAL_ERROR" = .FAILED ∧
    mapBuildStatusToDeploymentStatus "CANCELLED" = .CANCELLED ∧
    (∀ s : String,
      s ∉ (["QUEUED", "PENDING", "WORKING", "SUCCESS", "FAILURE", "TIMEOUT",
            "INTERNAL_ERROR", "CANCELLED"] : List String) →
      mapBuildStatusToDeploymentStatus s = .BUILDING ∧
      isTerminalStatus (mapBuildStatusToDeploymentStatus s) = false) := by
  refine ⟨by decide, by decide, by decide, by decide, by decide, by decide, by decide,
    by decide, ?_⟩
  intro s hs
  simp only [List.mem_cons, List.not_mem_nil, or_false, not_or] at hs
  obtain ⟨h1, h2, h3, h4, h5, h6, h7, h8⟩ := hs
  unfold mapBuildStatusToDeploymentStatus
  rw [if_neg (by tauto), if_neg h3, if_neg h4, if_neg (by tauto), if_neg h8]
  exact ⟨rfl, rfl⟩

/-- Witness for C5 at the concrete unrecognized input `"EXPIRED"`. -/
theorem mapBuildStatus_total_mapping_witness :
    mapBuildStatusToDeploymentStatus "EXPIRED" = .BUILDING ∧
    isTerminalStatus (mapBuildStatusToDeploymentStatus "EXPIRED") = false :=
  mapBuildStatus_total_mapping.2.2.2.2.2.2.2.2 "EXPIRED" (by decide)

/- ------------------------------------------------------------------ -/
/- Claim C10                                                           -/
/- ------------------------------------------------------------------ -/

/-- Claim C10: when no project with the given id exists, or the project's
repository URL is null, `createDeployment` throws before any write — the
store is returned unchanged (no deployment row, no version consumption, no
project mutation). -/
theorem createDeployment_errors_before_any_write :
    ∀ (db : Db) (pid : Nat) (opts : CreateDeploymentOptions) (submit : SubmitOutcome) (now : Nat),
      (findProject db pid = none →
        createDeployment db pid opts submit now = (db, .error "Project not found")) ∧
      (∀ p, findProject db pid = some p → p.repoUrl = none →
        createDeployment db pid opts submit now
          = (db, .error "Project has no repository URL configured")) := by
  intro db pid opts submit now
  constructor
  · intro h
    unfold createDeployment
    rw [h]
  · intro p hp hr
    unfold createDeployment
    simp only [hp, hr]

/-- A concrete project with no repository URL, for witnesses. -/
def noRepoProject : Project :=
  { id := 2, ownerEmail := "o@x", repoUrl := none, branch := "main",
    subdomain := "s", status := .PENDING, lastDeployedAt := none,
    cloudRunService := none, webhookConfig := none }

/-- Witness for C10 on a concrete store: project 1 does not exist in the
empty store, and project 2 of the second store has no repository URL. -/
theorem createDeployment_errors_before_any_write_witness :
    createDeployment ⟨[], []⟩ 1 ⟨none, none, none, "alice"⟩ (.ok 3) 0
      = (⟨[], []⟩, .error "Project not found") ∧
    createDeployment ⟨[noRepoProject], []⟩ 2 ⟨none, none, none, "alice"⟩ (.ok 3) 0
      = (⟨[noRepoProject], []⟩, .error "Project has no repository URL configured") :=
  ⟨(createDeployment_errors_before_any_write ⟨[], []⟩ 1 ⟨none, none, none, "alice"⟩
      (.ok 3) 0).1 (by decide),
   (createDeployment_errors_before_any_write ⟨[noRepoProject], []⟩ 2
      ⟨none, none, none, "alice"⟩ (.ok 3) 0).2 noRepoProject (by decide) (by decide)⟩

/- ------------------------------------------------------------------ -/
/- Claim C6                                                            -/
/- ------------------------------------------------------------------ -/

/-- Claim C6: `verifyWebhookSignature` is total (a function into `Bool`, the
embedded `try/catch` around the comparison returning `false` on the length
mismatch that would throw) and: verifies a body whose header is `sha256=`
followed by the hex HMAC of the body under the effective secret; returns
`false` when the header is absent; returns `false` whenever no secret is
configured (the effective secret is empty — fails closed); returns `false`
for any signature other than the correct digest (in particular any mutated
signature); and returns `false` for a mutated body whenever the body's digest
differs from the original's (the collision-freeness the code obtains from
HMAC-SHA256). -/
theorem verifyWebhookSignature_spec :
    ∀ (hm : String → String → String) (env payload : String)
      (sec : Option String) (sig : Option String),
      (verifyWebhookSignature hm env payload none sec = false) ∧
      (jsOrString sec env = "" → verifyWebhookSignature hm env payload sig sec = false) ∧
      (jsOrString sec env ≠ "" →
        verifyWebhookSignature hm env payload
          (some ("sha256=" ++ hm (jsOrString sec env) payload)) sec = true) ∧
      (∀ sigStr, sigStr ≠ "sha256=" ++ hm (jsOrString sec env) payload →
        verifyWebhookSignature hm env payload (some sigStr) sec = false) ∧
      (∀ payload', hm (jsOrString sec env) payload' ≠ hm (jsOrString sec env) payload →
        verifyWebhookSignature hm env payload'
          (some ("sha256=" ++ hm (jsOrString sec env) payload)) sec = false) := by
  intro hm env payload sec sig
  refine ⟨rfl, ?_, ?_, ?_, ?_⟩
  · intro h0
    cases sig with
    | none => rfl
    | some s => simp [verifyWebhookSignature, h0]
  · intro h0
    simp [verifyWebhookSignature, h0]
  · intro sigStr hneq
    by_cases h0 : jsOrString sec env = ""
    · simp [verifyWebhookSignature, h0]
    · by_cases hl : ("sha256=" ++ hm (jsOrString sec env) payload).length = sigStr.length
      · simp only [verifyWebhookSignature, if_neg h0, if_pos hl]
        exact decide_eq_false (fun he => hneq he.symm)
      · simp only [verifyWebhookSignature, if_neg h0, if_neg hl]
  · intro payload' hne
    by_cases h0 : jsOrString sec env = ""
    · simp [verifyWebhookSignature, h0]
    · have hdiff : ("sha256=" ++ hm (jsOrString sec env) payload' : String)
          ≠ "sha256=" ++ hm (jsOrString sec env) payload := by
        intro he
        apply hne
        have hd := congrArg String.data he
        simp only [String.data_append] at hd
        exact String.ext (List.append_cancel_left hd)
      by_cases hl : ("sha256=" ++ hm (jsOrString sec env) payload').length
          = ("sha256=" ++ hm (jsOrString sec env) payload).length
      · simp only [verifyWebhookSignature, if_neg h0, if_pos hl]
        exact decide_eq_false hdiff
      · simp only [verifyWebhookSignature, if_neg h0, if_neg hl]

/-- Witness for C6 with a concrete digest function and inputs: a correct
signature verifies, a one-character mutation of the signature fails, a body
mutation fails, and with no configured secret the correct digest still fails. -/
theorem verifyWebhookSignature_spec_witness :
    verifyWebhookSignature (fun s p => s ++ p) "k" "body" (some "sha256=kbody") none = true ∧
    verifyWebhookSignature (fun s p => s ++ p) "k" "body" (some "sha256=kbodz") none = false ∧
    verifyWebhookSignature (fun s p => s ++ p) "k" "bodz" (some "sha256=kbody") none = false ∧
    verifyWebhookSignature (fun s p => s ++ p) "" "body" (some "sha256=body") none = false :=
  ⟨(verifyWebhookSignature_spec (fun s p => s ++ p) "k" "body" none none).2.2.1 (by decide),
   (verifyWebhookSignature_spec (fun s p => s ++ p) "k" "body" none none).2.2.2.1
     "sha256=kbodz" (by decide),
   (verifyWebhookSignature_spec (fun s p => s ++ p) "k" "body" none none).2.2.2.2
     "bodz" (by decide),
   (verifyWebhookSignature_spec (fun s p => s ++ p) "" "body" none none).2.1 (by decide)⟩

/- ------------------------------------------------------------------ -/
/- Claim C9                                                            -/
/- ------------------------------------------------------------------ -/

/-- Claim C9: `repoUrlMatches` judges two repository references equivalent
exactly when both parse (full GitHub URL or `owner/repo` shorthand, one
trailing `.git` ignored) to the same `(owner, repo)` pair case-insensitively;
in particular `https://github.com/acme/app.git` and `acme/App` are
equivalent, `acme/app` and `acme/app2` are not, and an input that parses as
neither form makes the predicate false. -/
theorem repoUrlMatches_spec :
    (∀ a b : String, repoUrlMatches a b = true ↔
      ∃ o1 r1 o2 r2, parseGitHubUrl a = some (o1, r1) ∧ parseGitHubUrl b = some (o2, r2) ∧
        lowerStr o1 = lowerStr o2 ∧ lowerStr r1 = lowerStr r2) ∧
    repoUrlMatches "https://github.com/acme/app.git" "acme/App" = true ∧
    repoUrlMatches "acme/app" "acme/app2" = false ∧
    (∀ a b : String, (parseGitHubUrl a = none ∨ parseGitHubUrl b = none) →
      repoUrlMatches a b = false) := by
  refine ⟨?_, by decide, by decide, ?_⟩
  · intro a b
    unfold repoUrlMatches
    constructor
    · intro hab
      cases hpa : parseGitHubUrl a with
      | none => rw [hpa] at hab; cases hab
      | some pa =>
        cases hpb : parseGitHubUrl b with
        | none => rw [hpa, hpb] at hab; cases hab
        | some pb =>
          obtain ⟨o1, r1⟩ := pa
          obtain ⟨o2, r2⟩ := pb
          rw [hpa, hpb] at hab
          simp only [Bool.and_eq_true, decide_eq_true_eq] at hab
          exact ⟨o1, r1, o2, r2, rfl, rfl, hab.1, hab.2⟩
    · rintro ⟨o1, r1, o2, r2, hpa, hpb, ho, hr⟩
      rw [hpa, hpb]
      simp only [Bool.and_eq_true, decide_eq_true_eq]
      exact ⟨ho, hr⟩
  · intro a b h
    unfold repoUrlMatches
    rcases h with h | h
    · rw [h]
    · rw [h]
      cases parseGitHubUrl a with
      | none => rfl
      | some pa => obtain ⟨o1, r1⟩ := pa; rfl

/-- Witness for C9: `a/b/c` parses as neither form, so matching it against
anything is false. -/
theorem repoUrlMatches_spec_witness :
    parseGitHubUrl "a/b/c" = none ∧ repoUrlMatches "a/b/c" "acme/app" = false :=
  ⟨by decide, repoUrlMatches_spec.2.2.2 "a/b/c" "acme/app" (Or.inl (by decide))⟩

/- ------------------------------------------------------------------ -/
/- Branch lemmas for updateDeploymentStatus                            -/
/- ------------------------------------------------------------------ -/

/-- Rewriting deployments does not affect project lookups. -/
lemma findProject_updateDeploymentRow (db : Db) (did : Nat) (f : Deployment → Deployment)
    (pid : Nat) : findProject (updateDeploymentRow db did f) pid = findProject db pid := rfl

/-- Rewriting projects does not affect deployment lookups. -/
lemma findDeployment_updateProjectRow (db : Db) (pid : Nat) (f : Project → Project)
    (did : Nat) : findDeployment (updateProjectRow db pid f) did = findDeployment db did := rfl

/-- The `LIVE` branch of `updateDeploymentStatus`. -/
lemma uds_eq_live (db : Db) (did : Nat) (extras : TransitionExtras) (now : Nat)
    (d : Deployment) (hd : findDeployment db did = some d) :
    updateDeploymentStatus db did .LIVE extras now
      = (updateProjectRow (updateDeploymentRow db did
            (fun x => applyTransitionData x .LIVE extras now)) d.projectId
            (fun p =>
              { p with
                  status := .DEPLOYED
                  lastDeployedAt := some now
                  cloudRunService := some ("project-" ++ p.subdomain) }),
         .ok (applyTransitionData d .LIVE extras now)) := by
  unfold updateDeploymentStatus
  rw [hd]
  rfl

/-- The `FAILED` branch of `updateDeploymentStatus`. -/
lemma uds_eq_failed (db : Db) (did : Nat) (extras : TransitionExtras) (now : Nat)
    (d : Deployment) (hd : findDeployment db did = some d) :
    updateDeploymentStatus db did .FAILED extras now
      = (updateProjectRow (updateDeploymentRow db did
            (fun x => applyTransitionData x .FAILED extras now)) d.projectId
            (fun p => { p with status := .FAILED }),
         .ok (applyTransitionData d .FAILED extras now)) := by
  unfold updateDeploymentStatus
  rw [hd]
  rfl

/-- The `CANCELLED` branch of `updateDeploymentStatus` (no project write). -/
lemma uds_eq_cancelled (db : Db) (did : Nat) (extras : TransitionExtras) (now : Nat)
    (d : Deployment) (hd : findDeployment db did = some d) :
    updateDeploymentStatus db did .CANCELLED extras now
      = (updateDeploymentRow db did (fun x => applyTransitionData x .CANCELLED extras now),
         .ok (applyTransitionData d .CANCELLED extras now)) := by
  unfold updateDeploymentStatus
  rw [hd]
  rfl

/-- The row returned by a deployment lookup satisfies the lookup predicate. -/
lemma findDeployment_beq {db : Db} {did : Nat} {d : Deployment}
    (hd : findDeployment db did = some d) : (d.id == did) = true := by
  unfold findDeployment at hd
  have h2 := List.find?_some hd
  simpa using h2

/-- The row returned by a project lookup satisfies the lookup predicate. -/
lemma findProject_beq {db : Db} {pid : Nat} {p : Project}
    (hp : findProject db pid = some p) : (p.id == pid) = true := by
  unfold findProject at hp
  have h2 := List.find?_some hp
  simpa using h2

/-- Looking the updated row up after any `updateDeploymentStatus` branch
returns the row with the transition data applied. -/
lemma uds_find_updated (db : Db) (did : Nat) (s : DeploymentStatus)
    (extras : TransitionExtras) (now : Nat) (d : Deployment)
    (hd : findDeployment db did = some d) :
    findDeployment (updateDeploymentStatus db did s extras now).1 did
      = some (applyTransitionData d s extras now) := by
  have hpd : (d.id == did) = true := findDeployment_beq hd
  have hfind : findDeployment (updateDeploymentRow db did
      (fun x => applyTransitionData x s extras now)) did
      = some (applyTransitionData d s extras now) := by
    rw [findDeployment_updateDeploymentRow db did did
      (fun x => applyTransitionData x s extras now) (fun x => rfl), hd]
    have hpd' : d.id = did := by simpa using hpd
    simp [hpd']
  unfold updateDeploymentStatus
  simp only [hd]
  split
  · rw [findDeployment_updateProjectRow]
    exact hfind
  · split
    · rw [findDeployment_updateProjectRow]
      exact hfind
    · exact hfind

/-- Result of `find?` after the project update performed on reaching LIVE. -/
lemma findProject_after_live_update (db : Db) (pid qid now : Nat) :
    findProject (updateProjectRow db pid (fun p =>
        { p with
            status := .DEPLOYED
            lastDeployedAt := some now
            cloudRunService := some ("project-" ++ p.subdomain) })) qid
      = (findProject db qid).map (fun p =>
          if p.id == pid then
            { p with
                status := ProjectStatus.DEPLOYED
                lastDeployedAt := some now
                cloudRunService := some ("project-" ++ p.subdomain) }
          else p) :=
  findProject_updateProjectRow db pid qid
    (fun p =>
      { p with
          status := .DEPLOYED
          lastDeployedAt := some now
          cloudRunService := some ("project-" ++ p.subdomain) })
    (fun _ => rfl)

/-- Result of `find?` after the project update performed on reaching FAILED. -/
lemma findProject_after_failed_update (db : Db) (pid qid : Nat) :
    findProject (updateProjectRow db pid (fun p => { p with status := .FAILED })) qid
      = (findProject db qid).map (fun p =>
          if p.id == pid then { p with status := ProjectStatus.FAILED } else p) :=
  findProject_updateProjectRow db pid qid
    (fun p => { p with status := .FAILED }) (fun _ => rfl)

/- ------------------------------------------------------------------ -/
/- Claim C8                                                            -/
/- ------------------------------------------------------------------ -/

/-- Claim C8: every transition into LIVE, FAILED or CANCELLED stamps a
completion timestamp on the deployment; a transition to LIVE sets the owning
project to DEPLOYED with the last-deployed time and running-service name
`project-<subdomain>`; a transition to FAILED sets the owning project's
status to FAILED; a transition to CANCELLED leaves the project table — hence
every field of the owning project — unchanged. -/
theorem transition_effects_spec :
    ∀ (db : Db) (did : Nat) (s : DeploymentStatus) (extras : TransitionExtras) (now : Nat)
      (d : Deployment), findDeployment db did = some d →
      (isTerminalStatus s = true →
        (findDeployment (updateDeploymentStatus db did s extras now).1 did).map
          (fun x => x.completedAt) = some (some now)) ∧
      (∀ p, findProject db d.projectId = some p →
        (findProject (updateDeploymentStatus db did .LIVE extras now).1 d.projectId).map
          (fun q => (q.status, q.lastDeployedAt, q.cloudRunService))
          = some (.DEPLOYED, some now, some ("project-" ++ p.subdomain))) ∧
      (∀ p, findProject db d.projectId = some p →
        (findProject (updateDeploymentStatus db did .FAILED extras now).1 d.projectId).map
          (fun q => q.status) = some .FAILED) ∧
      ((updateDeploymentStatus db did .CANCELLED extras now).1.projects = db.projects) := by
  intro db did s extras now d hd
  refine ⟨?_, ?_, ?_, ?_⟩
  · intro hterm
    rw [uds_find_updated db did s extras now d hd]
    unfold isTerminalStatus at hterm
    simp [applyTransitionData, hterm]
  · intro p hp
    rw [uds_eq_live db did extras now d hd]
    rw [findProject_after_live_update]
    rw [findProject_updateDeploymentRow, hp]
    have hpp : p.id = d.projectId := by simpa using findProject_beq hp
    simp [hpp]
  · intro p hp
    rw [uds_eq_failed db did extras now d hd]
    rw [findProject_after_failed_update]
    rw [findProject_updateDeploymentRow, hp]
    have hpp : p.id = d.projectId := by simpa using findProject_beq hp
    simp [hpp]
  · rw [uds_eq_cancelled db did extras now d hd]
    rfl

/-- A concrete project used in the cancellation and transition witnesses. -/
def cwProject : Project :=
  { id := 1, ownerEmail := "o@x", repoUrl := some "acme/app", branch := "main",
    subdomain := "acme1", status := .BUILDING, lastDeployedAt := none,
    cloudRunService := none, webhookConfig := none }

/-- A deployment that already finished LIVE. -/
def cwLiveDep : Deployment :=
  { id := 3, projectId := 1, version := 1, branch := "main", commitHash := none,
    commitMessage := none, triggeredBy := "alice", status := .LIVE, buildId := some 9,
    errorMessage := none, buildLogs := none, imageUrl := none, cloudRunUrl := none,
    startedAt := some 1, completedAt := some 2 }

/-- A deployment still running (BUILDING) with a backend build reference. -/
def cwRunDep : Deployment :=
  { id := 4, projectId := 1, version := 2, branch := "main", commitHash := none,
    commitMessage := none, triggeredBy := "alice", status := .BUILDING, buildId := some 9,
    errorMessage := none, buildLogs := none, imageUrl := none, cloudRunUrl := none,
    startedAt := some 5, completedAt := none }

/-- Concrete store with one LIVE and one running deployment of project 1. -/
def cwDb : Db := ⟨[cwProject], [cwLiveDep, cwRunDep]⟩

/-- Witness for C8 on the concrete store: transitioning deployment 4 to
FAILED stamps its completion time, and to LIVE updates project 1 to DEPLOYED
with the service name `project-acme1`; a CANCELLED transition leaves the
project table unchanged. -/
theorem transition_effects_spec_witness :
    (findDeployment (updateDeploymentStatus cwDb 4 .FAILED noExtras 7).1 4).map
      (fun x => x.completedAt) = some (some 7) ∧
    (findProject (updateDeploymentStatus cwDb 4 .LIVE noExtras 7).1 1).map
      (fun q => (q.status, q.lastDeployedAt, q.cloudRunService))
      = some (.DEPLOYED, some 7, some ("project-" ++ "acme1")) ∧
    (updateDeploymentStatus cwDb 4 .CANCELLED noExtras 7).1.projects = cwDb.projects :=
  ⟨(transition_effects_spec cwDb 4 .FAILED noExtras 7 cwRunDep (by decide)).1 (by decide),
   (transition_effects_spec cwDb 4 .LIVE noExtras 7 cwRunDep (by decide)).2.1
     cwProject (by decide),
   (transition_effects_spec cwDb 4 .CANCELLED noExtras 7 cwRunDep (by decide)).2.2.2⟩

/- ------------------------------------------------------------------ -/
/- Claim C7                                                            -/
/- ------------------------------------------------------------------ -/

/-- Claim C7: `cancelDeployment` fails on an unknown id; fails without any
mutation when the deployment is already terminal; and otherwise ends the
deployment in CANCELLED, with the backend-cancellation outcome (attempted
only when a build reference exists, inside try/catch) never affecting the
result — errors are logged, not propagated. -/
theorem cancelDeployment_effects_spec :
    ∀ (db : Db) (did : Nat) (bc bc' : BackendCancelOutcome) (now : Nat),
      (findDeployment db did = none →
        cancelDeployment db did bc now = (db, .error "Deployment not found")) ∧
      (∀ d, findDeployment db did = some d → isTerminalStatus d.status = true →
        cancelDeployment db did bc now = (db, .error "Cannot cancel a completed deployment")) ∧
      (∀ d, findDeployment db did = some d → isTerminalStatus d.status = false →
        (cancelDeployment db did bc now = cancelDeployment db did bc' now ∧
         (findDeployment (cancelDeployment db did bc now).1 did).map (fun x => x.status)
           = some .CANCELLED)) := by
  intro db did bc bc' now
  refine ⟨?_, ?_, ?_⟩
  · intro h
    unfold cancelDeployment
    rw [h]
  · intro d hd hterm
    unfold cancelDeployment
    unfold isTerminalStatus at hterm
    simp only [hd]
    rw [if_pos hterm]
  · intro d hd hterm
    unfold isTerminalStatus at hterm
    have hcond : ¬((d.status == DeploymentStatus.LIVE || d.status == DeploymentStatus.FAILED
        || d.status == DeploymentStatus.CANCELLED) = true) := by
      rw [hterm]
      simp
    have hred : ∀ bc0 : BackendCancelOutcome,
        cancelDeployment db did bc0 now = updateDeploymentStatus db did .CANCELLED noExtras now := by
      intro bc0
      unfold cancelDeployment
      simp only [hd]
      rw [if_neg hcond]
      cases hb : d.buildId <;> cases bc0 <;> rfl
    refine ⟨by rw [hred bc, hred bc'], ?_⟩
    rw [hred bc, uds_find_updated db did .CANCELLED noExtras now d hd]
    rfl

/-- Witness for C7 on the concrete store: cancelling LIVE deployment 3 fails
with the deployment unchanged, cancelling running deployment 4 ends in
CANCELLED whatever the backend answered, and cancelling unknown id 99 fails. -/
theorem cancelDeployment_effects_spec_witness :
    cancelDeployment cwDb 99 .ok 8 = (cwDb, .error "Deployment not found") ∧
    cancelDeployment cwDb 3 .ok 8 = (cwDb, .error "Cannot cancel a completed deployment") ∧
    cancelDeployment cwDb 4 (.err "backend refused") 8 = cancelDeployment cwDb 4 .ok 8 ∧
    (findDeployment (cancelDeployment cwDb 4 (.err "backend refused") 8).1 4).map
      (fun x => x.status) = some .CANCELLED :=
  ⟨(cancelDeployment_effects_spec cwDb 99 .ok .ok 8).1 (by decide),
   (cancelDeployment_effects_spec cwDb 3 .ok .ok 8).2.1 cwLiveDep (by decide) (by decide),
   ((cancelDeployment_effects_spec cwDb 4 (.err "backend refused") .ok 8).2.2 cwRunDep
     (by decide) (by decide)).1,
   ((cancelDeployment_effects_spec cwDb 4 (.err "backend refused") .ok 8).2.2 cwRunDep
     (by decide) (by decide)).2⟩

/- ------------------------------------------------------------------ -/
/- Structure lemmas for createDeployment                               -/
/- ------------------------------------------------------------------ -/

/-- Unfolding `findDeployment` to its `find?`. -/
lemma findDeployment_eq (db : Db) (i : Nat) :
    findDeployment db i = db.deployments.find? (fun d => d.id == i) := rfl

/-- Inserting a deployment does not affect project lookups. -/
lemma findProject_insertDeployment (db : Db) (d : Deployment) (pid : Nat) :
    findProject (insertDeployment db d) pid = findProject db pid := rfl

/-- Result of `find?` after a plain status update on projects. -/
lemma findProject_after_status_update (db : Db) (pid qid : Nat) (st : ProjectStatus) :
    findProject (updateProjectRow db pid (fun p => { p with status := st })) qid
      = (findProject db qid).map (fun p =>
          if p.id == pid then { p with status := st } else p) :=
  findProject_updateProjectRow db pid qid (fun p => { p with status := st }) (fun _ => rfl)

/-- Result of `find?` over an append whose first part has no hit. -/
lemma find?_append_of_none {α : Type} {p : α → Bool} {l1 l2 : List α}
    (h : l1.find? p = none) : (l1 ++ l2).find? p = l2.find? p := by
  rw [List.find?_append, h]
  rfl

/-- Success branch of `createDeployment`: the deployment table gains exactly
the new row, updated to CLONING with the backend reference and start time. -/
lemma createDeployment_ok_state (db : Db) (pid : Nat) (opts : CreateDeploymentOptions)
    (bid now : Nat) (p : Project) (u : String)
    (hp : findProject db pid = some p) (hu : p.repoUrl = some u) :
    (createDeployment db pid opts (.ok bid) now).1.deployments
      = db.deployments ++
        [{ queuedRecord db pid opts p with
             buildId := some bid
             status := DeploymentStatus.CLONING
             startedAt := some now }] := by
  unfold createDeployment
  simp only [hp, hu]
  unfold updateDeploymentRow updateProjectRow insertDeployment
  simp only [List.map_append, List.map_cons, List.map_nil]
  rw [show (queuedRecord db pid opts p).id = freshDeploymentId db from rfl]
  rw [map_update_no_hit _ _ _ (fun d hd => freshDeploymentId_not_hit db d hd)]
  simp [queuedRecord]

/-- Failure branch of `createDeployment`: the deployment table gains exactly
the new row, rolled forward to FAILED with the error and completion time. -/
lemma createDeployment_err_state (db : Db) (pid : Nat) (opts : CreateDeploymentOptions)
    (msg : String) (now : Nat) (p : Project) (u : String)
    (hp : findProject db pid = some p) (hu : p.repoUrl = some u) :
    (createDeployment db pid opts (.err msg) now).1.deployments
      = db.deployments ++
        [{ queuedRecord db pid opts p with
             status := DeploymentStatus.FAILED
             errorMessage := some msg
             completedAt := some now }] := by
  unfold createDeployment
  simp only [hp, hu]
  unfold updateDeploymentRow updateProjectRow insertDeployment
  simp only [List.map_append, List.map_cons, List.map_nil]
  rw [show (queuedRecord db pid opts p).id = freshDeploymentId db from rfl]
  rw [map_update_no_hit _ _ _ (fun d hd => freshDeploymentId_not_hit db d hd)]
  simp [queuedRecord]

/-- Failure branch of `createDeployment`: the function rethrows the
submission error. -/
lemma createDeployment_err_result (db : Db) (pid : Nat) (opts : CreateDeploymentOptions)
    (msg : String) (now : Nat) (p : Project) (u : String)
    (hp : findProject db pid = some p) (hu : p.repoUrl = some u) :
    (createDeployment db pid opts (.err msg) now).2 = .error msg := by
  unfold createDeployment
  simp only [hp, hu]

/- ------------------------------------------------------------------ -/
/- Claim C4                                                            -/
/- ------------------------------------------------------------------ -/

/-- Appending the new row and looking up the generated id finds it. -/
lemma find?_append_new (db : Db) (dep : Deployment) (hdep : dep.id = freshDeploymentId db) :
    (db.deployments ++ [dep]).find? (fun d => d.id == freshDeploymentId db) = some dep := by
  have hnone : db.deployments.find? (fun d => d.id == freshDeploymentId db) = none := by
    have h := findDeployment_fresh db
    unfold findDeployment at h
    exact h
  rw [find?_append_of_none hnone]
  simp [hdep]

/-- Claim C4: if build submission fails inside `createDeployment`, the
just-created deployment is transitioned to FAILED with the submission error
message and a completion timestamp, the owning project's status is set to
FAILED, and the error is rethrown; whatever the submission outcome, the new
deployment is never left in QUEUED. -/
theorem create_submission_failure_rolls_forward :
    ∀ (db : Db) (pid : Nat) (opts : CreateDeploymentOptions) (msg : String) (now : Nat)
      (p : Project) (u : String),
      findProject db pid = some p → p.repoUrl = some u →
      ((createDeployment db pid opts (.err msg) now).2 = .error msg ∧
       (findDeployment (createDeployment db pid opts (.err msg) now).1
           (freshDeploymentId db)).map (fun x => (x.status, x.errorMessage, x.completedAt))
         = some (.FAILED, some msg, some now) ∧
       (findProject (createDeployment db pid opts (.err msg) now).1 pid).map
         (fun q => q.status) = some .FAILED ∧
       (∀ submit : SubmitOutcome,
         (findDeployment (createDeployment db pid opts submit now).1
             (freshDeploymentId db)).map (fun x => x.status) ≠ some .QUEUED)) := by
  intro db pid opts msg now p u hp hu
  refine ⟨createDeployment_err_result db pid opts msg now p u hp hu, ?_, ?_, ?_⟩
  · rw [findDeployment_eq, createDeployment_err_state db pid opts msg now p u hp hu,
      find?_append_new db _ rfl]
    rfl
  · unfold createDeployment
    simp only [hp, hu]
    rw [findProject_after_status_update]
    rw [findProject_updateDeploymentRow]
    rw [findProject_after_status_update]
    rw [findProject_insertDeployment, hp]
    have hpp : p.id = pid := by simpa using findProject_beq hp
    simp [hpp]
  · intro submit
    cases submit with
    | ok bid =>
      rw [findDeployment_eq, createDeployment_ok_state db pid opts bid now p u hp hu,
        find?_append_new db _ rfl]
      simp
    | err m =>
      rw [findDeployment_eq, createDeployment_err_state db pid opts m now p u hp hu,
        find?_append_new db _ rfl]
      simp

/-- Witness for C4 on the concrete store: a failed submission for project 1
yields a FAILED deployment 5 carrying the error and completion time, a FAILED
project, and no QUEUED leftover. -/
theorem create_submission_failure_rolls_forward_witness :
    (createDeployment cwDb 1 ⟨none, none, none, "alice"⟩ (.err "quota") 9).2
      = .error "quota" ∧
    (findDeployment (createDeployment cwDb 1 ⟨none, none, none, "alice"⟩ (.err "quota") 9).1
        (freshDeploymentId cwDb)).map (fun x => (x.status, x.errorMessage, x.completedAt))
      = some (.FAILED, some "quota", some 9) ∧
    (findProject (createDeployment cwDb 1 ⟨none, none, none, "alice"⟩ (.err "quota") 9).1 1).map
      (fun q => q.status) = some .FAILED ∧
    (findDeployment (createDeployment cwDb 1 ⟨none, none, none, "alice"⟩ (.ok 11) 9).1
        (freshDeploymentId cwDb)).map (fun x => x.status) ≠ some .QUEUED :=
  ⟨(create_submission_failure_rolls_forward cwDb 1 ⟨none, none, none, "alice"⟩ "quota" 9
      cwProject "acme/app" (by decide) (by decide)).1,
   (create_submission_failure_rolls_forward cwDb 1 ⟨none, none, none, "alice"⟩ "quota" 9
      cwProject "acme/app" (by decide) (by decide)).2.1,
   (create_submission_failure_rolls_forward cwDb 1 ⟨none, none, none, "alice"⟩ "quota" 9
      cwProject "acme/app" (by decide) (by decide)).2.2.1,
   (create_submission_failure_rolls_forward cwDb 1 ⟨none, none, none, "alice"⟩ "quota" 9
      cwProject "acme/app" (by decide) (by decide)).2.2.2 (.ok 11)⟩

/- ------------------------------------------------------------------ -/
/- Invariant lemmas                                                    -/
/- ------------------------------------------------------------------ -/

/-- List-level active count. -/
def activeCountL (l : List Deployment) (pid : Nat) : Nat := l.countP (activeForProject pid)

/-- The count `activeCount` only reads the deployment table. -/
lemma activeCount_eq_list (db : Db) (pid : Nat) :
    activeCount db pid = activeCountL db.deployments pid := rfl

/-- Active count over an append of a single row. -/
lemma activeCountL_append_single (l : List Deployment) (d : Deployment) (pid : Nat) :
    activeCountL (l ++ [d]) pid
      = activeCountL l pid + (if activeForProject pid d = true then 1 else 0) := by
  unfold activeCountL
  rw [List.countP_append]
  simp [List.countP_cons]

/-- A keyed row rewrite that never activates a hit row cannot increase the
active count. -/
lemma activeCountL_update_le (l : List Deployment) (did : Nat) (f : Deployment → Deployment)
    (pid : Nat)
    (hf : ∀ d ∈ l, (d.id == did) = true →
      activeForProject pid (f d) = true → activeForProject pid d = true) :
    activeCountL (l.map (fun d => if d.id == did then f d else d)) pid
      ≤ activeCountL l pid := by
  unfold activeCountL
  rw [List.countP_map]
  apply List.countP_mono_left
  intro x hx hpx
  simp only [Function.comp_apply] at hpx
  by_cases h : (x.id == did) = true
  · rw [if_pos h] at hpx
    exact hf x hx h hpx
  · rw [if_neg h] at hpx
    exact hpx

/-- The route's negative active-deployment lookup means the count is zero. -/
lemma hasActive_false_count (db : Db) (pid : Nat)
    (h : hasActiveDeployment db pid = false) : activeCount db pid = 0 := by
  unfold hasActiveDeployment at h
  rw [List.any_eq_false] at h
  unfold activeCount
  rw [List.countP_eq_zero]
  intro a ha
  exact h a ha

/-- Terminal statuses are not active. -/
lemma isActive_not_of_terminal (s : DeploymentStatus) (h : isTerminalStatus s = true) :
    isActiveStatus s = false := by
  cases s <;> revert h <;> decide

/-- Appending one row of project `pid` to a store with no active deployment
of `pid` keeps the invariant. -/
lemma singleActive_of_append (db X : Db) (dep : Deployment) (pid : Nat)
    (hX : X.deployments = db.deployments ++ [dep]) (hdp : dep.projectId = pid)
    (hsa : singleActive db) (hcnt0 : activeCount db pid = 0) : singleActive X := by
  intro q
  rw [activeCount_eq_list, hX, activeCountL_append_single]
  by_cases hq : pid = q
  · subst hq
    have h0 : activeCountL db.deployments pid = 0 := hcnt0
    rw [h0]
    split <;> omega
  · have hb : (dep.projectId == q) = false := by
      rw [hdp]
      simpa using hq
    have hdep : activeForProject q dep = false := by
      unfold activeForProject
      rw [hb]
      rfl
    rw [hdep]
    have hle := hsa q
    rw [activeCount_eq_list] at hle
    simpa using hle

/-- A keyed row rewrite that never activates a hit row preserves the
invariant. -/
lemma singleActive_update_of (db : Db) (did : Nat) (f : Deployment → Deployment)
    (hsa : singleActive db)
    (hf : ∀ q, ∀ d ∈ db.deployments, (d.id == did) = true →
      activeForProject q (f d) = true → activeForProject q d = true) :
    singleActive (updateDeploymentRow db did f) := by
  intro q
  rw [activeCount_eq_list]
  have hle := activeCountL_update_le db.deployments did f q (hf q)
  have h1 := hsa q
  rw [activeCount_eq_list] at h1
  exact le_trans hle h1

/- ------------------------------------------------------------------ -/
/- Claim C1                                                            -/
/- ------------------------------------------------------------------ -/

/-- Claim C1 (amended): manual creation through the deploy route preserves
the single-active-deployment invariant (its active lookup answers 409 before
inserting), cancellation preserves it, and a transition preserves it provided
the targeted deployment is currently non-terminal or the new status is
terminal; the webhook-triggered create path performs no such check and can
violate the invariant (see the counterexample). -/
theorem manual_flows_preserve_single_active :
    ∀ db : Db, singleActive db →
      (∀ (sess : Option String) (pid : Nat) (br : Option String)
         (submit : SubmitOutcome) (now : Nat),
        singleActive (deployRoutePOST db sess pid br submit now).1) ∧
      (∀ (did : Nat) (bc : BackendCancelOutcome) (now : Nat),
        singleActive (cancelDeployment db did bc now).1) ∧
      (∀ (did : Nat) (s : DeploymentStatus) (extras : TransitionExtras) (now : Nat),
        (isTerminalStatus s = true ∨
          ∀ d ∈ db.deployments, (d.id == did) = true → isActiveStatus d.status = true) →
        singleActive (updateDeploymentStatus db did s extras now).1) := by
  intro db hsa
  refine ⟨?_, ?_, ?_⟩
  · intro sess pid br submit now
    unfold deployRoutePOST
    cases sess with
    | none => exact hsa
    | some email =>
      dsimp only
      by_cases he : email = ""
      · rw [if_pos he]
        exact hsa
      · rw [if_neg he]
        cases hp : findProject db pid with
        | none => exact hsa
        | some project =>
          dsimp only
          by_cases how : project.ownerEmail ≠ email
          · rw [if_pos how]
            exact hsa
          · rw [if_neg how]
            by_cases hact : hasActiveDeployment db pid = true
            · rw [if_pos hact]
              exact hsa
            · rw [if_neg hact]
              have hactF : hasActiveDeployment db pid = false := by
                revert hact
                cases hasActiveDeployment db pid <;> simp
              have hcnt0 : activeCount db pid = 0 := hasActive_false_count db pid hactF
              have hsa1 : singleActive (createDeployment db pid
                  ⟨some (jsOrString br project.branch), none, none, email⟩ submit now).1 := by
                cases hu : project.repoUrl with
                | none =>
                  rw [(createDeployment_errors_before_any_write db pid
                    ⟨some (jsOrString br project.branch), none, none, email⟩ submit now).2
                    project hp hu]
                  exact hsa
                | some u =>
                  cases submit with
                  | ok bid =>
                    exact singleActive_of_append db _ _ pid
                      (createDeployment_ok_state db pid _ bid now project u hp hu)
                      rfl hsa hcnt0
                  | err msg =>
                    exact singleActive_of_append db _ _ pid
                      (createDeployment_err_state db pid _ msg now project u hp hu)
                      rfl hsa hcnt0
              rcases hres : createDeployment db pid
                  ⟨some (jsOrString br project.branch), none, none, email⟩ submit now
                with ⟨db1, res⟩
              rw [hres] at hsa1
              cases res with
              | ok dres => exact hsa1
              | error msg => exact hsa1
  · intro did bc now
    cases hd : findDeployment db did with
    | none =>
      unfold cancelDeployment
      rw [hd]
      exact hsa
    | some d =>
      by_cases hterm : (d.status == DeploymentStatus.LIVE
          || d.status == DeploymentStatus.FAILED
          || d.status == DeploymentStatus.CANCELLED) = true
      · unfold cancelDeployment
        simp only [hd]
        rw [if_pos hterm]
        exact hsa
      · have hred : cancelDeployment db did bc now
            = updateDeploymentStatus db did .CANCELLED noExtras now := by
          unfold cancelDeployment
          simp only [hd]
          rw [if_neg hterm]
          cases d.buildId <;> cases bc <;> rfl
        rw [hred, uds_eq_cancelled db did noExtras now d hd]
        exact singleActive_update_of db did _ hsa
          (fun q x hx hxid hact => by
            simp [activeForProject, applyTransitionData, isActiveStatus] at hact)
  · intro did s extras now hcond
    cases hd : findDeployment db did with
    | none =>
      unfold updateDeploymentStatus
      simp only [hd]
      exact hsa
    | some d =>
      have hkey : singleActive (updateDeploymentRow db did
          (fun x => applyTransitionData x s extras now)) := by
        apply singleActive_update_of db did _ hsa
        intro q x hx hxid hact
        rcases hcond with hterm | hnact
        · exfalso
          have hfa : isActiveStatus ((applyTransitionData x s extras now).status) = false := by
            rw [show (applyTransitionData x s extras now).status = s from rfl]
            exact isActive_not_of_terminal s hterm
          unfold activeForProject at hact
          rw [hfa] at hact
          simp at hact
        · have hxa : isActiveStatus x.status = true := hnact x hx hxid
          unfold activeForProject at hact
          simp only [Bool.and_eq_true] at hact
          have h1 : (x.projectId == q) = true := hact.1
          unfold activeForProject
          rw [h1, hxa]
          rfl
      unfold updateDeploymentStatus
      simp only [hd]
      split
      · intro q
        exact hkey q
      · split
        · intro q
          exact hkey q
        · exact hkey

/-- Witness for C1 (amended) on the concrete store `cwDb`, which satisfies the
invariant: a manual deploy through the route preserves it. -/
theorem manual_flows_preserve_single_active_witness :
    singleActive (deployRoutePOST cwDb (some "o@x") 1 none (.ok 11) 9).1 := by
  have hsa : singleActive cwDb := by
    intro pid
    rw [activeCount_eq_list]
    show List.countP (activeForProject pid) (cwLiveDep :: [cwRunDep]) ≤ 1
    rw [List.countP_cons]
    have h1 : activeForProject pid cwLiveDep = false := by
      simp [activeForProject, cwLiveDep, isActiveStatus]
    rw [h1]
    have h2 : List.countP (activeForProject pid) [cwRunDep] ≤ 1 :=
      le_trans (List.countP_le_length _) (by decide)
    simpa using h2
  exact (manual_flows_preserve_single_active cwDb hsa).1 (some "o@x") 1 none (.ok 11) 9

/-- A project with webhook auto-deploy enabled, already building. -/
def c1Project : Project :=
  { id := 1, ownerEmail := "o@x", repoUrl := some "acme/app", branch := "main",
    subdomain := "acme1", status := .BUILDING, lastDeployedAt := none,
    cloudRunService := none, webhookConfig := some ⟨true, true⟩ }

/-- The deployment of project 1 already running when the push arrives. -/
def c1Dep : Deployment :=
  { id := 1, projectId := 1, version := 1, branch := "main", commitHash := none,
    commitMessage := none, triggeredBy := "alice", status := .BUILDING, buildId := some 9,
    errorMessage := none, buildLogs := none, imageUrl := none, cloudRunUrl := none,
    startedAt := some 5, completedAt := none }

/-- Store with one active deployment of project 1 — the invariant holds. -/
def c1Db : Db := ⟨[c1Project], [c1Dep]⟩

/-- A push event matching project 1's repository and branch. -/
def c1Push : PushData :=
  ⟨"main", "abc123", "fix", "https://github.com/acme/app.git", "bob"⟩

/-- Counterexample to C1: the webhook trigger loop calls `createDeployment`
with no active-deployment check, so a push arriving while project 1 already
has an active (BUILDING) deployment creates a second non-terminal deployment
for it — the webhook-triggered create does not preserve the invariant. -/
theorem webhook_create_breaks_single_active :
    singleActive c1Db ∧
    ¬ singleActive (webhookTriggerDeployments c1Db c1Push (fun _ => .ok 7) 10).1 := by
  constructor
  · intro pid
    have h : activeCount c1Db pid ≤ c1Db.deployments.length := List.countP_le_length _
    simpa using h
  · intro h
    have h1 := h 1
    have h2 : activeCount (webhookTriggerDeployments c1Db c1Push (fun _ => .ok 7) 10).1 1
        = 2 := by decide
    omega

/- ------------------------------------------------------------------ -/
/- Claim C2                                                            -/
/- ------------------------------------------------------------------ -/

/-- Counterexample to C2: with an active (BUILDING) deployment of project 1
present, the orchestrator's `createDeployment` — the `create` that accepts
commit data, and the function the webhook path calls — succeeds and inserts a
second row instead of failing with a conflict: the active-deployment lookup
lives only in the manual route, not immediately before the insertion. -/
theorem createDeployment_ignores_active_deployment :
    hasActiveDeployment cwDb 1 = true ∧
    exceptOk (createDeployment cwDb 1 ⟨none, none, none, "webhook:bob"⟩ (.ok 12) 10).2 = true ∧
    (createDeployment cwDb 1 ⟨none, none, none, "webhook:bob"⟩ (.ok 12) 10).1.deployments.length
      = cwDb.deployments.length + 1 := by
  refine ⟨by decide, by decide, by decide⟩

/-- Claim C2 (amended): the manual deploy route, for a project with an active
(non-terminal) deployment, always answers 409 conflict and performs no
mutation — the active lookup happens in the route before `createDeployment`
is invoked; `createDeployment` itself performs no such check. -/
theorem manual_create_conflicts_on_active :
    ∀ (db : Db) (email : String) (pid : Nat) (br : Option String)
      (submit : SubmitOutcome) (now : Nat) (p : Project),
      findProject db pid = some p → p.ownerEmail = email → email ≠ "" →
      hasActiveDeployment db pid = true →
      deployRoutePOST db (some email) pid br submit now = (db, .conflict) := by
  intro db email pid br submit now p hp hown hne hact
  unfold deployRoutePOST
  dsimp only
  rw [if_neg hne]
  rw [hp]
  dsimp only
  rw [if_neg (fun hcc => hcc hown)]
  rw [if_pos hact]

/-- Witness for C2 (amended): on the concrete store the manual deploy route
answers conflict and leaves the store unchanged. -/
theorem manual_create_conflicts_on_active_witness :
    deployRoutePOST cwDb (some "o@x") 1 none (.ok 11) 9 = (cwDb, .conflict) :=
  manual_create_conflicts_on_active cwDb "o@x" 1 none (.ok 11) 9 cwProject
    (by decide) (by decide) (by decide) (by decide)

/- ------------------------------------------------------------------ -/
/- Claim C3                                                            -/
/- ------------------------------------------------------------------ -/

/-- One status write (and `status` event) per observation whose normalized
status differs from the status in the snapshot taken at stream start. -/
lemma relayLoop_status_count (snapshot : Deployment) (subdomain region : String) (now : Nat) :
    ∀ (obs : List (String × String)) (db : Db) (acc : String),
      statusEventCount (relayLoop snapshot subdomain region now db acc obs).2.2
        = obs.countP (fun ob =>
            decide (mapBuildStatusToDeploymentStatus ob.2 ≠ snapshot.status)) := by
  intro obs
  induction obs with
  | nil =>
    intro db acc
    rfl
  | cons ob rest ih =>
    intro db acc
    obtain ⟨chunk, backendStatus⟩ := ob
    rw [List.countP_cons]
    by_cases hne : mapBuildStatusToDeploymentStatus backendStatus ≠ snapshot.status
    · unfold relayLoop
      dsimp only
      rw [if_pos hne]
      simp only [statusEventCount, List.countP_cons] at ih ⊢
      rw [ih]
      simp [hne]
    · unfold relayLoop
      dsimp only
      rw [if_neg hne]
      simp only [statusEventCount, List.countP_cons] at ih ⊢
      rw [ih]
      simp [hne]

/-- The project owning the relayed deployment in the concrete scenarios. -/
def c3Project : Project :=
  { id := 1, ownerEmail := "o@x", repoUrl := some "acme/app", branch := "main",
    subdomain := "acme1", status := .BUILDING, lastDeployedAt := none,
    cloudRunService := none, webhookConfig := none }

/-- The deployment snapshot fetched when the stream opens: status CLONING
with a backend reference. -/
def c3Snap : Deployment :=
  { id := 5, projectId := 1, version := 1, branch := "main", commitHash := none,
    commitMessage := none, triggeredBy := "alice", status := .CLONING, buildId := some 9,
    errorMessage := none, buildLogs := none, imageUrl := none, cloudRunUrl := none,
    startedAt := some 5, completedAt := none }

/-- Concrete store for the relay scenarios. -/
def c3Db : Db := ⟨[c3Project], [c3Snap]⟩

/-- Counterexample to C3: the loop compares each normalized status against
`deployment.status` — the snapshot fetched once before the stream — not the
last-known (last-written) value. With snapshot CLONING and the backend
reporting WORKING twice, BUILDING is written twice: the second write happens
although the last-known status is already BUILDING, a redundant status
write. -/
theorem relay_repeats_status_write :
    (relayStream c3Db c3Snap "acme1" "us-central1" 10 [("a", "WORKING"), ("b", "WORKING")]).2
      = [.log "a", .statusEvent .BUILDING, .log "b", .statusEvent .BUILDING, .complete] ∧
    statusEventCount (relayStream c3Db c3Snap "acme1" "us-central1" 10
      [("a", "WORKING"), ("b", "WORKING")]).2 = 2 :=
  ⟨by decide, by decide⟩

/-- Claim C3 (amended): within one log-relay stream a status transition is
written exactly when the newly normalized backend status differs from the
status the deployment had when the stream was opened (not from the
last-written value, so a backend status repeated across polls is written
repeatedly); in particular, for the observed backend sequence
QUEUED→BUILDING→SUCCESS against a CLONING snapshot, exactly one transition is
applied per observation — one per distinct status value — the final stored
status is LIVE, and the persisted transcript is the concatenation of all
forwarded chunks. -/
theorem relay_transitions_against_snapshot :
    (∀ (snapshot : Deployment) (sub reg : String) (now : Nat)
       (db : Db) (obs : List (String × String)),
      statusEventCount (relayStream db snapshot sub reg now obs).2
        = obs.countP (fun ob =>
            decide (mapBuildStatusToDeploymentStatus ob.2 ≠ snapshot.status))) ∧
    (relayStream c3Db c3Snap "acme1" "us-central1" 10
        [("a", "QUEUED"), ("b", "WORKING"), ("c", "SUCCESS")]).2
      = [.log "a", .statusEvent .QUEUED, .log "b", .statusEvent .BUILDING,
         .log "c", .statusEvent .LIVE, .complete] ∧
    (findDeployment (relayStream c3Db c3Snap "acme1" "us-central1" 10
        [("a", "QUEUED"), ("b", "WORKING"), ("c", "SUCCESS")]).1 5).map
      (fun d => (d.status, d.buildLogs, d.completedAt))
      = some (.LIVE, some "abc", some 10) ∧
    (findProject (relayStream c3Db c3Snap "acme1" "us-central1" 10
        [("a", "QUEUED"), ("b", "WORKING"), ("c", "SUCCESS")]).1 1).map
      (fun p => (p.status, p.lastDeployedAt)) = some (.DEPLOYED, some 10) := by
  refine ⟨?_, by decide, by decide, by decide⟩
  intro snapshot sub reg now db obs
  unfold relayStream
  dsimp only
  unfold statusEventCount
  rw [List.countP_append]
  have h0 : List.countP
      (fun e => match e with | SseEvent.statusEvent _ => true | _ => false)
      [SseEvent.complete] = 0 := rfl
  rw [h0, Nat.add_zero]
  exact relayLoop_status_count snapshot sub reg now obs db ""
